import Mathlib

/-!
Verification of `src/power_monitor.py` (power-measurement-toolkit).

Shallow embedding conventions:
* Python floats (timestamps, watt values, intervals, durations) are modelled
  as exact rationals `ℚ`; Python ints as `ℤ`.
* Fallible operations return `Option`: `none` models an exception / absent
  value (`None` in Python).
* `calculate_rapl_power` returns `Option (EstimatorState × Option ℚ)`:
  the outer `Option` models the `TypeError` Python would raise if
  `prev_rapl_energy` is set while `prev_rapl_time` is `None`
  (the code only tests `prev_rapl_energy is None`); the inner `Option ℚ`
  is the returned power value (`None` on the first call or when
  `time_delta_s <= 0`).
-/

namespace PowerMonitor

/-- EstimatorState: the two instance attributes `self.prev_rapl_energy` and
`self.prev_rapl_time` of `PowerMonitor`, used for the RAPL delta calculation. -/
structure EstimatorState where
  prev_rapl_energy : Option ℤ
  prev_rapl_time : Option ℚ
deriving DecidableEq

/-- The state set by `PowerMonitor.__init__`: both attributes are `None`. -/
def initState : EstimatorState := ⟨none, none⟩

/-- PowerMonitor.calculate_rapl_power, lines 133-166 of power_monitor.py.
First reading stores the sample and returns no power; otherwise the deltas
are computed, a negative energy delta gets `2**32` added (rollover guess),
the state is updated, and power `(delta_e / delta_t) / 1_000_000` is
returned unless `delta_t <= 0`. -/
def calculate_rapl_power (st : EstimatorState) (energy_uj : ℤ) (timestamp : ℚ) :
    Option (EstimatorState × Option ℚ) :=
  match st.prev_rapl_energy, st.prev_rapl_time with
  | none, _ =>
      some (⟨some energy_uj, some timestamp⟩, none)
  | some _, none => none
  | some prevE, some prevT =>
      let d0 : ℤ := energy_uj - prevE
      let time_delta_s : ℚ := timestamp - prevT
      let energy_delta_uj : ℤ := if d0 < 0 then d0 + 2 ^ 32 else d0
      if time_delta_s ≤ 0 then
        some (⟨some energy_uj, some timestamp⟩, none)
      else
        some (⟨some energy_uj, some timestamp⟩,
          some (((energy_delta_uj : ℚ) / time_delta_s) / 1000000))

/-- The spec's invariant on the estimator state: `prev_rapl_energy` and
`prev_rapl_time` are both present or both absent. -/
def both_or_neither (st : EstimatorState) : Prop :=
  st.prev_rapl_energy.isSome = st.prev_rapl_time.isSome

instance (st : EstimatorState) : Decidable (both_or_neither st) := by
  unfold both_or_neither; infer_instance

/-- Scanner state for the digit part of Python `int(str)`: `start` before any
character, `digit` after a digit, `underscore` after a grouping underscore
(which must be followed by a digit), `fail` once the input is invalid. -/
inductive ParseSt where
  | start
  | digit
  | underscore
  | fail
deriving DecidableEq

/-- One character of the digit part of Python `int(str)`: digits accumulate;
a single underscore is allowed only directly after a digit; anything else
(or a second underscore) is invalid. -/
def stepDigits (s : ParseSt × ℕ) (c : Char) : ParseSt × ℕ :=
  match s with
  | (ParseSt.fail, a) => (ParseSt.fail, a)
  | (st, a) =>
      if c.isDigit then (ParseSt.digit, a * 10 + (c.toNat - 48))
      else if c = '_' then
        match st with
        | ParseSt.digit => (ParseSt.underscore, a)
        | _ => (ParseSt.fail, a)
      else (ParseSt.fail, a)

/-- The digit part of Python `int(str)`: a non-empty digit sequence with
single underscores between digits ("10", "1_0" valid; "", "_1", "1_",
"1__0" invalid). -/
def pyDigitsVal (l : List Char) : Option ℕ :=
  match l.foldl stepDigits (ParseSt.start, 0) with
  | (ParseSt.digit, a) => some a
  | _ => none

/-- The ASCII whitespace characters removed by Python `str.strip()`:
TAB, LF, VT, FF, CR (codes 9-13), the separator controls \x1c-\x1f, and
the space. (Non-ASCII Unicode whitespace is out of scope.) -/
def pyWhitespace (c : Char) : Bool :=
  decide ((9 ≤ c.toNat ∧ c.toNat ≤ 13) ∨ c.toNat = 32 ∨
    (28 ≤ c.toNat ∧ c.toNat ≤ 31))

/-- Python `str.strip()`: leading and trailing whitespace removed. -/
def pyStrip (l : List Char) : List Char :=
  ((l.dropWhile pyWhitespace).reverse.dropWhile pyWhitespace).reverse

/-- Python `int(str)` on an already-stripped character sequence: an optional
single sign followed by a valid digit sequence. (Non-ASCII decimal digits,
which CPython also accepts, are out of scope.) -/
def pyIntOfList (l : List Char) : Option ℤ :=
  match l with
  | [] => none
  | c :: rest =>
      if c = '+' then (pyDigitsVal rest).map (fun n => (n : ℤ))
      else if c = '-' then (pyDigitsVal rest).map (fun n => -(n : ℤ))
      else (pyDigitsVal (c :: rest)).map (fun n => (n : ℤ))

/-- PowerMonitor.read_rapl_energy, lines 119-131: `int(f.read().strip())`,
with any exception (unreadable file, invalid literal) mapped to `None`.
`content = none` models a failed file read. -/
def read_rapl_energy (content : Option String) : Option ℤ :=
  content.bind (fun s => pyIntOfList (pyStrip s.data))

/-- Modelled from the amended claim's words: the continuation of a digit
run after its first digit — empty, another digit, or a single grouping
underscore that must be followed by a digit. Stated independently of the
scanner, to characterize it. -/
inductive DigitTail : List Char → Prop
  | nil : DigitTail []
  | dig (c : Char) (l : List Char) :
      c.isDigit = true → DigitTail l → DigitTail (c :: l)
  | sep (c : Char) (l : List Char) :
      c.isDigit = true → DigitTail l → DigitTail ('_' :: c :: l)

/-- Modelled from the amended claim's words: a non-empty digit run with
single underscores between digits — a first digit followed by a valid
tail. -/
def ValidPyDigits (l : List Char) : Prop :=
  ∃ c rest, l = c :: rest ∧ c.isDigit = true ∧ DigitTail rest

/-- Modelled from the amended claim's words: a valid (ASCII) CPython
integer literal — an optionally signed non-empty digit run with single
underscores between digits. -/
def ValidPyIntLiteral (l : List Char) : Prop :=
  ValidPyDigits l ∨
    (∃ rest, l = '+' :: rest ∧ ValidPyDigits rest) ∨
    (∃ rest, l = '-' :: rest ∧ ValidPyDigits rest)

/-- One measurement record as assembled by `take_measurement` (lines 185-191):
the formatted timestamp string, the raw epoch seconds, and the three
optional readings. -/
structure Measurement where
  timestamp : String
  timestamp_unix : ℚ
  ipmi_watts : Option ℚ
  rapl_pkg_watts : Option ℚ
  rapl_energy_uj : Option ℤ
deriving DecidableEq

/-- PowerMonitor.take_measurement, lines 168-193. The wall-clock time,
the IPMI read result and the raw RAPL file content are inputs of the model;
the RAPL power is only calculated when the energy read succeeded. The outer
`Option` propagates a `calculate_rapl_power` crash. -/
def take_measurement (st : EstimatorState) (timestamp_str : String)
    (timestamp : ℚ) (ipmi_power : Option ℚ) (rapl_content : Option String) :
    Option (EstimatorState × Measurement) :=
  match read_rapl_energy rapl_content with
  | none => some (st, ⟨timestamp_str, timestamp, ipmi_power, none, none⟩)
  | some e =>
      match calculate_rapl_power st e timestamp with
      | none => none
      | some (st2, p) =>
          some (st2, ⟨timestamp_str, timestamp, ipmi_power, p, some e⟩)

/-- CSV cell for an optional float: `csv.DictWriter` writes `None` as the
empty string. (Exact float formatting is abstracted by `toString`.) -/
def render_cell_q : Option ℚ → String
  | none => ""
  | some q => toString q

/-- CSV cell for an optional integer: `None` becomes the empty string. -/
def render_cell_i : Option ℤ → String
  | none => ""
  | some n => toString n

/-- One CSV data row in the fieldnames order of `save_to_csv`. -/
def render_row (m : Measurement) : String :=
  m.timestamp ++ "," ++ toString m.timestamp_unix ++ ","
    ++ render_cell_q m.ipmi_watts ++ "," ++ render_cell_q m.rapl_pkg_watts
    ++ "," ++ render_cell_i m.rapl_energy_uj

/-- The header row written by `csv.DictWriter.writeheader` for the
fieldnames of `save_to_csv` (lines 209-210). -/
def csv_header : String :=
  "timestamp,timestamp_unix,ipmi_watts,rapl_pkg_watts,rapl_energy_uj"

/-- PowerMonitor.save_to_csv, lines 202-218: returns the lines written, or
`none` when nothing is written (`if not self.output_file or not
self.measurements: return` — note an empty path string is also falsy). -/
def save_to_csv (output_file : Option String)
    (measurements : List Measurement) : Option (List String) :=
  match output_file with
  | none => none
  | some f =>
      if f = "" ∨ measurements = [] then none
      else some (csv_header :: measurements.map render_row)

/-- The loop guard `if duration and (time.time() - start_time) >= duration`
(line 251): `duration` is falsy when `None` or `0.0`. -/
def duration_reached (duration : Option ℚ) (start_time now : ℚ) : Bool :=
  match duration with
  | none => false
  | some d => if d = 0 then false else decide (now - start_time ≥ d)

/-- The `while self.running` loop of PowerMonitor.run (lines 249-264), with
wall-clock time explicit. `costs` lists how long each `take_measurement`
call takes; after each measurement the loop sleeps the full
`self.interval` (`time.sleep(self.interval)`, line 264). `fuel` bounds the
iterations (models external interruption). Returns the final wall-clock
time and the number of measurements appended. -/
def run_loop (interval : ℚ) (duration : Option ℚ) (start_time : ℚ) :
    ℚ → List ℚ → ℕ → ℚ × ℕ
  | now, _, 0 => (now, 0)
  | now, costs, fuel + 1 =>
      if duration_reached duration start_time now then (now, 0)
      else
        let after_sleep := now + costs.headD 0 + interval
        let rest := run_loop interval duration start_time after_sleep
          costs.tail fuel
        (rest.1, rest.2 + 1)

/-- PowerMonitor.run (lines 220-264): `start_time = time.time()` is taken
first (line 228), then the priming `take_measurement` (line 244) consumes
`priming_cost` seconds, and only then the sampling loop starts — so elapsed
time in the loop guard is measured from before priming. -/
def run (interval : ℚ) (duration : Option ℚ) (t0 priming_cost : ℚ)
    (costs : List ℚ) (fuel : ℕ) : ℚ × ℕ :=
  run_loop interval duration t0 (t0 + priming_cost) costs fuel

/-- Modelled from the spec (§4.5 MonitorLoop): the sampling loop as the spec
describes it, suspending for "the remaining interval (interval duration
minus time spent collecting, floored at zero)". Used only to compare with
the code's `run_loop`. -/
def spec_run_loop (interval : ℚ) (duration : Option ℚ) (start_time : ℚ) :
    ℚ → List ℚ → ℕ → ℚ × ℕ
  | now, _, 0 => (now, 0)
  | now, costs, fuel + 1 =>
      if duration_reached duration start_time now then (now, 0)
      else
        let after_sleep := now + costs.headD 0
          + max (interval - costs.headD 0) 0
        let rest := spec_run_loop interval duration start_time after_sleep
          costs.tail fuel
        (rest.1, rest.2 + 1)

/-- Modelled from the spec (§4.5): a run whose bounded-loop condition
measures elapsed time "from Sampling start", i.e. from after the priming
round. Used only to compare with the code's `run`. -/
def spec_run (interval : ℚ) (duration : Option ℚ) (t0 priming_cost : ℚ)
    (costs : List ℚ) (fuel : ℕ) : ℚ × ℕ :=
  run_loop interval duration (t0 + priming_cost) (t0 + priming_cost)
    costs fuel

/-- Helper: from a fully stored state, with non-decreasing energy and strictly
increasing timestamps, the estimator takes the no-rollover branch and returns
the exact quotient. -/
lemma calculate_rapl_power_steady (e1 e2 : ℤ) (t1 t2 : ℚ)
    (he : e1 ≤ e2) (ht : t1 < t2) :
    calculate_rapl_power ⟨some e1, some t1⟩ e2 t2 =
      some (⟨some e2, some t2⟩,
        some ((((e2 : ℚ) - (e1 : ℚ)) / (t2 - t1)) / 1000000)) := by
  have h1 : ¬ (e2 - e1 < 0) := by omega
  have h2 : ¬ (t2 - t1 ≤ 0) := by linarith
  simp only [calculate_rapl_power, h1, if_false, if_neg h2, Option.some.injEq,
    Prod.mk.injEq, true_and]
  push_cast
  ring_nf

/-- Helper: from a fully stored state, with decreasing energy and strictly
increasing timestamps, the estimator takes the rollover branch, adding
`2 ^ 32` to the energy delta. -/
lemma calculate_rapl_power_rollover (e1 e2 : ℤ) (t1 t2 : ℚ)
    (he : e2 < e1) (ht : t1 < t2) :
    calculate_rapl_power ⟨some e1, some t1⟩ e2 t2 =
      some (⟨some e2, some t2⟩,
        some ((((e2 : ℚ) + 2 ^ 32 - (e1 : ℚ)) / (t2 - t1)) / 1000000)) := by
  have h1 : e2 - e1 < 0 := by omega
  have h2 : ¬ (t2 - t1 ≤ 0) := by linarith
  simp only [calculate_rapl_power, h1, if_true, if_neg h2, Option.some.injEq,
    Prod.mk.injEq, true_and]
  push_cast
  ring_nf

/-- Helper: once the scanner is in the `fail` state it stays there. -/
lemma foldl_stepDigits_fail (l : List Char) (a : ℕ) :
    l.foldl stepDigits (ParseSt.fail, a) = (ParseSt.fail, a) := by
  induction l with
  | nil => rfl
  | cons c rest ih => simpa [stepDigits] using ih

/-- Helper: a digit sends every non-`fail` state to the `digit` state. -/
lemma stepDigits_digit_char (st : ParseSt) (a : ℕ) (c : Char)
    (hst : st ≠ ParseSt.fail) (hc : c.isDigit = true) :
    stepDigits (st, a) c = (ParseSt.digit, a * 10 + (c.toNat - 48)) := by
  cases st with
  | fail => exact absurd rfl hst
  | start => simp [stepDigits, hc]
  | digit => simp [stepDigits, hc]
  | underscore => simp [stepDigits, hc]

/-- Helper: an underscore after a digit moves to the `underscore` state. -/
lemma stepDigits_sep_from_digit (a : ℕ) :
    stepDigits (ParseSt.digit, a) '_' = (ParseSt.underscore, a) := by
  simp [stepDigits]

/-- Helper: a character that is neither a digit nor an underscore sends
every state to `fail`. -/
lemma stepDigits_bad_char (st : ParseSt) (a : ℕ) (c : Char)
    (hc : c.isDigit = false) (hu : c ≠ '_') :
    stepDigits (st, a) c = (ParseSt.fail, a) := by
  cases st <;> simp [stepDigits, hc, hu]

/-- Helper: a non-digit character sends every state other than `digit`
(where an underscore would be allowed) to `fail`. -/
lemma stepDigits_nondigit_char (st : ParseSt) (a : ℕ) (c : Char)
    (hc : c.isDigit = false) (hst : st ≠ ParseSt.digit) :
    stepDigits (st, a) c = (ParseSt.fail, a) := by
  by_cases hu : c = '_'
  · subst hu
    cases st with
    | digit => exact absurd rfl hst
    | start => simp [stepDigits, hc]
    | underscore => simp [stepDigits, hc]
    | fail => simp [stepDigits]
  · exact stepDigits_bad_char st a c hc hu

/-- Helper: from the `digit` state, a valid tail ends in the `digit`
state. -/
lemma foldl_stepDigits_digitTail (l : List Char) (h : DigitTail l) :
    ∀ a : ℕ, (l.foldl stepDigits (ParseSt.digit, a)).1 = ParseSt.digit := by
  induction h with
  | nil => intro a; rfl
  | dig c l hc hl ih =>
      intro a
      rw [List.foldl_cons, stepDigits_digit_char _ _ _ (by decide) hc]
      exact ih _
  | sep c l hc hl ih =>
      intro a
      rw [List.foldl_cons, stepDigits_sep_from_digit,
        List.foldl_cons, stepDigits_digit_char _ _ _ (by decide) hc]
      exact ih _

/-- Helper: conversely, a tail that keeps the scanner in the `digit` state
is a valid tail (strong induction on the tail length). -/
lemma digitTail_of_foldl :
    ∀ (n : ℕ) (l : List Char), l.length ≤ n → ∀ a : ℕ,
      (l.foldl stepDigits (ParseSt.digit, a)).1 = ParseSt.digit →
      DigitTail l := by
  intro n
  induction n with
  | zero =>
      intro l hl a h
      have hnil : l = [] := List.length_eq_zero.mp (Nat.le_zero.mp hl)
      subst hnil
      exact DigitTail.nil
  | succ n ih =>
      intro l hl a h
      rcases l with _ | ⟨c, rest⟩
      · exact DigitTail.nil
      · by_cases hc : c.isDigit = true
        · rw [List.foldl_cons, stepDigits_digit_char _ _ _ (by decide) hc] at h
          have hlen : rest.length ≤ n := by
            simp only [List.length_cons] at hl
            omega
          exact DigitTail.dig c rest hc (ih rest hlen _ h)
        · have hc' : c.isDigit = false := by simpa using hc
          by_cases hu : c = '_'
          · subst hu
            rw [List.foldl_cons, stepDigits_sep_from_digit] at h
            rcases rest with _ | ⟨d, rest2⟩
            · simp at h
            · by_cases hd : d.isDigit = true
              · rw [List.foldl_cons,
                  stepDigits_digit_char _ _ _ (by decide) hd] at h
                have hlen2 : rest2.length ≤ n := by
                  simp only [List.length_cons] at hl
                  omega
                exact DigitTail.sep d rest2 hd (ih rest2 hlen2 _ h)
              · have hd' : d.isDigit = false := by simpa using hd
                rw [List.foldl_cons,
                  stepDigits_nondigit_char _ _ _ hd' (by decide),
                  foldl_stepDigits_fail] at h
                simp at h
          · rw [List.foldl_cons, stepDigits_bad_char _ _ _ hc' hu,
              foldl_stepDigits_fail] at h
            simp at h

/-- Helper: the scanner accepts a character sequence exactly when it is a
non-empty digit run with single underscores between digits. -/
lemma pyDigitsVal_ne_none_iff (l : List Char) :
    pyDigitsVal l ≠ none ↔ ValidPyDigits l := by
  constructor
  · intro h
    have hd : (l.foldl stepDigits (ParseSt.start, 0)).1 = ParseSt.digit := by
      by_contra hne
      apply h
      unfold pyDigitsVal
      rcases hfold : l.foldl stepDigits (ParseSt.start, 0) with ⟨st, a⟩
      rw [hfold] at hne
      cases st with
      | start => rfl
      | digit => exact absurd rfl hne
      | underscore => rfl
      | fail => rfl
    rcases l with _ | ⟨c, rest⟩
    · exact absurd hd (by decide)
    · by_cases hc : c.isDigit = true
      · rw [List.foldl_cons, stepDigits_digit_char _ _ _ (by decide) hc] at hd
        exact ⟨c, rest, rfl, hc, digitTail_of_foldl rest.length rest le_rfl _ hd⟩
      · have hc' : c.isDigit = false := by simpa using hc
        rw [List.foldl_cons, stepDigits_nondigit_char _ _ _ hc' (by decide),
          foldl_stepDigits_fail] at hd
        exact absurd hd (by decide)
  · rintro ⟨c, rest, rfl, hc, ht⟩
    unfold pyDigitsVal
    rw [List.foldl_cons, stepDigits_digit_char _ _ _ (by decide) hc]
    rcases hfold : rest.foldl stepDigits
        (ParseSt.digit, 0 * 10 + (c.toNat - 48)) with ⟨st, a⟩
    have hfin := foldl_stepDigits_digitTail rest ht (0 * 10 + (c.toNat - 48))
    rw [hfold] at hfin
    simp only at hfin
    subst hfin
    simp

/-- Helper: a sequence headed by a non-digit is not a valid digit run. -/
lemma not_validPyDigits_of_head (c : Char) (rest : List Char)
    (hc : c.isDigit = false) : ¬ ValidPyDigits (c :: rest) := by
  rintro ⟨d, rest2, heq, hd, -⟩
  injection heq with h1 h2
  rw [← h1] at hd
  rw [hc] at hd
  exact Bool.noConfusion hd

/-- Helper: the integer parser accepts a character sequence exactly when it
is a valid (optionally signed) integer literal. -/
lemma pyIntOfList_ne_none_iff (l : List Char) :
    pyIntOfList l ≠ none ↔ ValidPyIntLiteral l := by
  rcases l with _ | ⟨c, rest⟩
  · constructor
    · intro h
      exact absurd rfl h
    · rintro (⟨d, r, heq, -, -⟩ | ⟨r, heq, -⟩ | ⟨r, heq, -⟩) <;>
        exact List.noConfusion heq
  · by_cases hp : c = '+'
    · subst hp
      have hred : pyIntOfList ('+' :: rest) =
          (pyDigitsVal rest).map (fun n => (n : ℤ)) := by
        simp [pyIntOfList]
      rw [hred]
      have hmap : (pyDigitsVal rest).map (fun n => (n : ℤ)) ≠ none ↔
          pyDigitsVal rest ≠ none := by
        rcases pyDigitsVal rest with _ | n <;> simp
      rw [hmap, pyDigitsVal_ne_none_iff]
      constructor
      · intro hv
        exact Or.inr (Or.inl ⟨rest, rfl, hv⟩)
      · rintro (hv | ⟨r, heq, hvr⟩ | ⟨r, heq, hvr⟩)
        · exact absurd hv (not_validPyDigits_of_head _ _ (by decide))
        · injection heq with h1 h2
          subst h2
          exact hvr
        · injection heq with h1 h2
          exact absurd h1 (by decide)
    · by_cases hm : c = '-'
      · subst hm
        have hred : pyIntOfList ('-' :: rest) =
            (pyDigitsVal rest).map (fun n => -(n : ℤ)) := by
          simp [pyIntOfList]
        rw [hred]
        have hmap : (pyDigitsVal rest).map (fun n => -(n : ℤ)) ≠ none ↔
            pyDigitsVal rest ≠ none := by
          rcases pyDigitsVal rest with _ | n <;> simp
        rw [hmap, pyDigitsVal_ne_none_iff]
        constructor
        · intro hv
          exact Or.inr (Or.inr ⟨rest, rfl, hv⟩)
        · rintro (hv | ⟨r, heq, hvr⟩ | ⟨r, heq, hvr⟩)
          · exact absurd hv (not_validPyDigits_of_head _ _ (by decide))
          · injection heq with h1 h2
            exact absurd h1.symm (by decide)
          · injection heq with h1 h2
            subst h2
            exact hvr
      · have hred : pyIntOfList (c :: rest) =
            (pyDigitsVal (c :: rest)).map (fun n => (n : ℤ)) := by
          simp [pyIntOfList, hp, hm]
        rw [hred]
        have hmap : (pyDigitsVal (c :: rest)).map (fun n => (n : ℤ)) ≠ none ↔
            pyDigitsVal (c :: rest) ≠ none := by
          rcases pyDigitsVal (c :: rest) with _ | n <;> simp
        rw [hmap, pyDigitsVal_ne_none_iff]
        constructor
        · intro hv
          exact Or.inl hv
        · rintro (hv | ⟨r, heq, hvr⟩ | ⟨r, heq, hvr⟩)
          · exact hv
          · injection heq with h1 h2
            exact absurd h1 hp
          · injection heq with h1 h2
            exact absurd h1 hm

/-- Claim C1: for two consecutive estimator calls with strictly increasing
timestamps and non-decreasing energy, the second call returns exactly
`(delta_energy / delta_time) / 1e6` watts, where the deltas are taken
against the previously stored energy and timestamp. -/
theorem calculate_rapl_power_steady_formula :
    ∀ (e1 e2 : ℤ) (t1 t2 : ℚ), e1 ≤ e2 → t1 < t2 →
      calculate_rapl_power ⟨some e1, some t1⟩ e2 t2 =
        some (⟨some e2, some t2⟩,
          some ((((e2 : ℚ) - (e1 : ℚ)) / (t2 - t1)) / 1000000)) :=
  fun e1 e2 t1 t2 he ht => calculate_rapl_power_steady e1 e2 t1 t2 he ht

/-- Witness for claim C1 at energy 0 then 1000000 microjoules, timestamps 0
then 1 second: exactly one watt. -/
theorem calculate_rapl_power_steady_formula_witness :
    (0 : ℤ) ≤ 1000000 ∧ (0 : ℚ) < 1 ∧
      calculate_rapl_power ⟨some 0, some 0⟩ 1000000 1 =
        some (⟨some 1000000, some 1⟩,
          some (((((1000000 : ℤ) : ℚ) - ((0 : ℤ) : ℚ)) / ((1 : ℚ) - 0)) / 1000000)) :=
  ⟨by decide, by norm_num,
    calculate_rapl_power_steady_formula 0 1000000 0 1 (by decide) (by norm_num)⟩

/-- Claim C6: when the new timestamp is not past the stored one
(`delta_time <= 0`), the estimator returns no power value, yet the stored
state is still advanced to the new sample. -/
theorem calculate_rapl_power_nonpos_dt :
    ∀ (e1 e2 : ℤ) (t1 t2 : ℚ), t2 ≤ t1 →
      calculate_rapl_power ⟨some e1, some t1⟩ e2 t2 =
        some (⟨some e2, some t2⟩, none) := by
  intro e1 e2 t1 t2 ht
  have h2 : t2 - t1 ≤ 0 := by linarith
  simp only [calculate_rapl_power, if_pos h2]

/-- Witness for claim C6 at a duplicate timestamp: no power, state advanced. -/
theorem calculate_rapl_power_nonpos_dt_witness :
    (2 : ℚ) ≤ 2 ∧
      calculate_rapl_power ⟨some 5, some 2⟩ 7 2 =
        some (⟨some 7, some 2⟩, none) :=
  ⟨by norm_num, calculate_rapl_power_nonpos_dt 5 7 2 2 (by norm_num)⟩

/-- Claim C5 (counterexample): with stored energy `2 ^ 33` and new energy 0
(a drop of more than the assumed counter width), the rollover-corrected
power is negative, not positive, even though `delta_time = 1 > 0`. -/
theorem calculate_rapl_power_rollover_counterexample :
    calculate_rapl_power ⟨some (2 ^ 33), some 0⟩ 0 1 =
      some (⟨some 0, some 1⟩,
        some ((((0 : ℚ) + 2 ^ 32 - 2 ^ 33) / (1 - 0)) / 1000000)) ∧
    ¬ 0 < (((0 : ℚ) + 2 ^ 32 - 2 ^ 33) / (1 - 0)) / 1000000 := by
  constructor
  · have h := calculate_rapl_power_rollover (2 ^ 33) 0 0 1 (by norm_num) (by norm_num)
    simpa using h
  · norm_num

/-- Claim C5 (amended): on every rollover tick (new energy strictly below
the stored energy) with `delta_time > 0`, the estimator returns exactly
`(e2 + 2^32 - e1) / delta_time / 1e6`; provided additionally the energy
drop is smaller than the assumed counter width `2 ^ 32`, that value is
positive. -/
theorem calculate_rapl_power_rollover_amended :
    ∀ (e1 e2 : ℤ) (t1 t2 : ℚ), e2 < e1 → t1 < t2 →
      calculate_rapl_power ⟨some e1, some t1⟩ e2 t2 =
        some (⟨some e2, some t2⟩,
          some ((((e2 : ℚ) + 2 ^ 32 - (e1 : ℚ)) / (t2 - t1)) / 1000000)) ∧
      (e1 - e2 < 2 ^ 32 →
        0 < (((e2 : ℚ) + 2 ^ 32 - (e1 : ℚ)) / (t2 - t1)) / 1000000) := by
  intro e1 e2 t1 t2 he ht
  refine ⟨calculate_rapl_power_rollover e1 e2 t1 t2 he ht, ?_⟩
  intro hwidth
  have hnum : 0 < (e2 : ℚ) + 2 ^ 32 - (e1 : ℚ) := by
    have : (e1 : ℚ) - (e2 : ℚ) < 2 ^ 32 := by exact_mod_cast hwidth
    linarith
  have hden : 0 < t2 - t1 := by linarith
  positivity

/-- Witness for amended claim C5: stored energy 100, new energy 50, one
second apart — both the formula and, since the drop is below `2 ^ 32`, the
positivity. -/
theorem calculate_rapl_power_rollover_amended_witness :
    (50 : ℤ) < 100 ∧ (0 : ℚ) < 1 ∧ (100 : ℤ) - 50 < 2 ^ 32 ∧
      (calculate_rapl_power ⟨some 100, some 0⟩ 50 1 =
        some (⟨some 50, some 1⟩,
          some (((((50 : ℤ) : ℚ) + 2 ^ 32 - ((100 : ℤ) : ℚ)) / ((1 : ℚ) - 0)) / 1000000)) ∧
       0 < ((((50 : ℤ) : ℚ) + 2 ^ 32 - ((100 : ℤ) : ℚ)) / ((1 : ℚ) - 0)) / 1000000) :=
  ⟨by decide, by norm_num, by decide,
    (calculate_rapl_power_rollover_amended 100 50 0 1 (by decide) (by norm_num)).1,
    (calculate_rapl_power_rollover_amended 100 50 0 1 (by decide) (by norm_num)).2
      (by decide)⟩

/-- Claim C8: the state set by `__init__` satisfies the invariant, and every
successful estimator call leaves a state in which `prev_rapl_energy` and
`prev_rapl_time` are both present or both absent. -/
theorem estimator_state_invariant :
    both_or_neither initState ∧
    ∀ (st : EstimatorState) (e : ℤ) (t : ℚ) (st2 : EstimatorState)
      (p : Option ℚ),
      calculate_rapl_power st e t = some (st2, p) → both_or_neither st2 := by
  refine ⟨rfl, ?_⟩
  intro st e t st2 p h
  rcases st with ⟨pe, pt⟩
  rcases pe with _ | e1 <;> rcases pt with _ | t1
  · simp only [calculate_rapl_power, Option.some.injEq, Prod.mk.injEq] at h
    obtain ⟨h1, -⟩ := h
    subst h1
    rfl
  · simp only [calculate_rapl_power, Option.some.injEq, Prod.mk.injEq] at h
    obtain ⟨h1, -⟩ := h
    subst h1
    rfl
  · simp only [calculate_rapl_power] at h
    exact Option.noConfusion h
  · simp only [calculate_rapl_power] at h
    split at h <;>
    · simp only [Option.some.injEq, Prod.mk.injEq] at h
      obtain ⟨h1, -⟩ := h
      subst h1
      rfl

/-- Witness for claim C8: the first estimator call from the initial state
yields a state with both fields present. -/
theorem estimator_state_invariant_witness :
    calculate_rapl_power initState 0 0 = some (⟨some 0, some 0⟩, none) ∧
    both_or_neither ⟨some 0, some 0⟩ :=
  ⟨rfl, estimator_state_invariant.2 initState 0 0 ⟨some 0, some 0⟩ none rfl⟩

/-- Claim C4 (counterexample): the interface content `"-5"` is not a valid
non-negative integer, yet the read returns it as an energy value instead of
failing — Python `int()` accepts a leading sign, and also grouping
underscores (`"1_000"` parses as 1000). -/
theorem read_rapl_energy_negative_counterexample :
    read_rapl_energy (some "-5") = some (-5) ∧
    read_rapl_energy (some "1_000") = some 1000 := by
  exact ⟨by decide, by decide⟩

/-- Claim C4 (amended): for ASCII interface content, the read fails
(yielding no energy value) exactly when the stripped content is not an
optionally signed non-empty digit run with single underscores between
digits; in particular a textual negative integer is parsed and returned as
a negative energy value rather than rejected. The ASCII hypothesis scopes
the statement to content on which the embedded parser coincides with
CPython `int()`/`str.strip()` (which additionally accept non-ASCII Unicode
digits and whitespace). -/
theorem read_rapl_energy_parse_amended :
    (∀ s : String, (∀ c ∈ s.data, c.toNat < 128) →
        (read_rapl_energy (some s) = none ↔
          ¬ ValidPyIntLiteral (pyStrip s.data))) ∧
    (read_rapl_energy (some "-5") = some (-5) ∧
     read_rapl_energy (some "1_000") = some 1000) := by
  refine ⟨?_, by decide, by decide⟩
  intro s _
  show pyIntOfList (pyStrip s.data) = none ↔ ¬ ValidPyIntLiteral (pyStrip s.data)
  constructor
  · intro h hv
    exact (pyIntOfList_ne_none_iff (pyStrip s.data)).mpr hv h
  · intro h
    by_contra hne
    exact h ((pyIntOfList_ne_none_iff (pyStrip s.data)).mp hne)

/-- Witness for amended claim C4 on the ASCII content `"12a"`. -/
theorem read_rapl_energy_parse_amended_witness :
    (∀ c ∈ ("12a" : String).data, c.toNat < 128) ∧
    (read_rapl_energy (some "12a") = none ↔
      ¬ ValidPyIntLiteral (pyStrip ("12a" : String).data)) :=
  ⟨by decide, read_rapl_energy_parse_amended.1 "12a" (by decide)⟩

/-- Claim C9: on a tick where the energy read fails, `take_measurement`
does not invoke the estimator and leaves the stored state unchanged; the
next successful reading then computes power over the combined interval
from the last stored timestamp, spanning the failed tick. -/
theorem take_measurement_failed_read_frame :
    (∀ (st : EstimatorState) (ts : String) (t : ℚ) (ip : Option ℚ)
        (content : Option String),
        read_rapl_energy content = none →
        take_measurement st ts t ip content =
          some (st, ⟨ts, t, ip, none, none⟩)) ∧
    (∀ (e0 : ℤ) (t0 : ℚ) (ts1 ts2 : String) (t1 t2 : ℚ)
        (ip1 ip2 : Option ℚ) (c1 c2 : Option String) (e2 : ℤ),
        read_rapl_energy c1 = none → read_rapl_energy c2 = some e2 →
        e0 ≤ e2 → t0 < t2 →
        ((take_measurement ⟨some e0, some t0⟩ ts1 t1 ip1 c1).bind
            (fun r => take_measurement r.1 ts2 t2 ip2 c2)) =
          some (⟨some e2, some t2⟩,
            ⟨ts2, t2, ip2,
              some ((((e2 : ℚ) - (e0 : ℚ)) / (t2 - t0)) / 1000000),
              some e2⟩)) := by
  constructor
  · intro st ts t ip content hread
    simp [take_measurement, hread]
  · intro e0 t0 ts1 ts2 t1 t2 ip1 ip2 c1 c2 e2 h1 h2 he ht
    simp [take_measurement, h1, h2,
      calculate_rapl_power_steady e0 e2 t0 t2 he ht]

/-- Witness for claim C9: a failed read (`"bad"`) between two good ticks;
power is computed over the two-second combined interval. -/
theorem take_measurement_failed_read_frame_witness :
    (read_rapl_energy (some "bad") = none ∧
     read_rapl_energy (some "2000000") = some 2000000 ∧
     (0 : ℤ) ≤ 2000000 ∧ (0 : ℚ) < 2) ∧
    ((take_measurement ⟨some 0, some 0⟩ "a" 1 none (some "bad")).bind
        (fun r => take_measurement r.1 "b" 2 none (some "2000000"))) =
      some (⟨some 2000000, some 2⟩,
        ⟨"b", 2, none,
          some (((((2000000 : ℤ) : ℚ) - ((0 : ℤ) : ℚ)) / ((2 : ℚ) - 0)) / 1000000),
          some 2000000⟩) :=
  ⟨⟨by decide, by decide, by decide, by norm_num⟩,
    take_measurement_failed_read_frame.2 0 0 "a" "b" 1 2 none none
      (some "bad") (some "2000000") 2000000
      (by decide) (by decide) (by decide) (by norm_num)⟩

/-- Claim C2 (counterexample): with interval 1s, duration 2s and two ticks
whose collection costs 0.5s each, the code's loop (which executes
`time.sleep(self.interval)`) finishes at t = 3, while the loop the spec
describes (sleep `max (interval - cost) 0`) finishes at t = 2 — the code
slept the full nominal interval although collection consumed part of it. -/
theorem run_loop_full_sleep_counterexample :
    run_loop 1 (some 2) 0 0 [1/2, 1/2] 5 = (3, 2) ∧
    spec_run_loop 1 (some 2) 0 0 [1/2, 1/2] 5 = (2, 2) ∧
    run_loop 1 (some 2) 0 0 [1/2, 1/2] 5 ≠
      spec_run_loop 1 (some 2) 0 0 [1/2, 1/2] 5 := by
  have h1 : run_loop 1 (some 2) 0 0 [1/2, 1/2] 5 = (3, 2) := by
    norm_num [run_loop, duration_reached]
  have h2 : spec_run_loop 1 (some 2) 0 0 [1/2, 1/2] 5 = (2, 2) := by
    norm_num [spec_run_loop, duration_reached]
  refine ⟨h1, h2, ?_⟩
  rw [h1, h2]
  intro hcontra
  have hfst := congrArg Prod.fst hcontra
  norm_num at hfst

/-- Claim C2 (amended): in the sampling state, after collecting each sample
the loop suspends for the full nominal interval, regardless of the time the
collection consumed (never a negative sleep, but also never reduced by the
collection time). -/
theorem run_loop_sleeps_full_interval :
    ∀ (i : ℚ) (d : Option ℚ) (s now c : ℚ) (cs : List ℚ) (fuel : ℕ),
      duration_reached d s now = false →
      run_loop i d s now (c :: cs) (fuel + 1) =
        ((run_loop i d s (now + c + i) cs fuel).1,
         (run_loop i d s (now + c + i) cs fuel).2 + 1) := by
  intro i d s now c cs fuel h
  simp [run_loop, h]

/-- Witness for amended claim C2: one unbounded-loop iteration with
collection cost 1/2 advances the clock by exactly 1/2 + interval. -/
theorem run_loop_sleeps_full_interval_witness :
    duration_reached none 0 0 = false ∧
    run_loop 1 none 0 0 [1/2] (0 + 1) =
      ((run_loop 1 none 0 (0 + 1/2 + 1) [] 0).1,
       (run_loop 1 none 0 (0 + 1/2 + 1) [] 0).2 + 1) :=
  ⟨rfl, run_loop_sleeps_full_interval 1 none 0 0 (1/2) [] 0 rfl⟩

/-- Claim C3 (counterexample): with duration 1s, a priming round costing
2s and instantaneous ticks, the code takes zero samples (elapsed time is
measured from before priming, which already exhausted the duration), while
a loop measuring from Sampling start would take one sample. -/
theorem run_priming_counted_counterexample :
    run 1 (some 1) 0 2 [] 5 = (2, 0) ∧
    spec_run 1 (some 1) 0 2 [] 5 = (3, 1) ∧
    run 1 (some 1) 0 2 [] 5 ≠ spec_run 1 (some 1) 0 2 [] 5 := by
  have h1 : run 1 (some 1) 0 2 [] 5 = (2, 0) := by
    norm_num [run, run_loop, duration_reached]
  have h2 : spec_run 1 (some 1) 0 2 [] 5 = (3, 1) := by
    norm_num [spec_run, run_loop, duration_reached]
  refine ⟨h1, h2, ?_⟩
  rw [h1, h2]
  intro hcontra
  have hsnd := congrArg Prod.snd hcontra
  norm_num at hsnd

/-- Claim C3 (amended): the bounded-loop termination condition measures
elapsed wall-clock time from before the priming round (`start_time` is
taken first), so priming time does count against the configured duration;
in particular a priming round at least as long as a non-zero duration
yields zero samples. -/
theorem run_duration_includes_priming :
    (∀ (i : ℚ) (d : Option ℚ) (t0 p : ℚ) (costs : List ℚ) (fuel : ℕ),
        run i d t0 p costs fuel = run_loop i d t0 (t0 + p) costs fuel) ∧
    (∀ (i d t0 p : ℚ) (costs : List ℚ) (fuel : ℕ),
        d ≠ 0 → d ≤ p →
        run i (some d) t0 p costs (fuel + 1) = (t0 + p, 0)) := by
  constructor
  · intro i d t0 p costs fuel
    rfl
  · intro i d t0 p costs fuel hd hp
    have hreach : duration_reached (some d) t0 (t0 + p) = true := by
      simp only [duration_reached, if_neg hd, decide_eq_true_eq]
      linarith
    simp [run, run_loop, hreach]

/-- Witness for amended claim C3: duration 1s, priming cost 2s — the run
stops immediately with zero samples. -/
theorem run_duration_includes_priming_witness :
    (1 : ℚ) ≠ 0 ∧ (1 : ℚ) ≤ 2 ∧
    run 1 (some 1) 0 2 [] (4 + 1) = (0 + 2, 0) :=
  ⟨by norm_num, by norm_num,
    run_duration_includes_priming.2 1 1 0 2 [] 4 (by norm_num) (by norm_num)⟩

/-- Claim C7 (counterexample): with an output path configured but no
collected samples, `save_to_csv` writes nothing at all — not even the
header row. -/
theorem save_to_csv_empty_counterexample :
    save_to_csv (some "out.csv") ([] : List Measurement) = none ∧
    save_to_csv (some "out.csv") ([] : List Measurement) ≠
      some [csv_header] := by
  refine ⟨rfl, ?_⟩
  intro hcontra
  exact Option.noConfusion hcontra

/-- Claim C7 (amended): when a non-empty output path is configured and at
least one sample was collected, the persisted file is written once at run
completion with the fixed header row followed by exactly one data row per
sampling tick (the priming measurement is never appended to
`self.measurements`), absent optional fields rendering as the empty
string; with zero samples no file is written at all. -/
theorem save_to_csv_content_amended :
    ∀ (f : String) (ms : List Measurement), f ≠ "" → ms ≠ [] →
      save_to_csv (some f) ms = some (csv_header :: ms.map render_row) ∧
      (ms.map render_row).length = ms.length ∧
      render_cell_q none = "" ∧ render_cell_i none = "" := by
  intro f ms hf hms
  refine ⟨?_, by simp, rfl, rfl⟩
  have : ¬ (f = "" ∨ ms = []) := by
    intro h
    rcases h with h | h
    · exact hf h
    · exact hms h
  simp only [save_to_csv, if_neg this]

/-- Witness for amended claim C7: one sample with all optional fields
absent gives the header plus one row of empty cells. -/
theorem save_to_csv_content_amended_witness :
    ("out.csv" : String) ≠ "" ∧
    ([(⟨"t", 0, none, none, none⟩ : Measurement)] ≠ []) ∧
    (save_to_csv (some "out.csv") [⟨"t", 0, none, none, none⟩] =
        some (csv_header ::
          ([(⟨"t", 0, none, none, none⟩ : Measurement)].map render_row)) ∧
      ([(⟨"t", 0, none, none, none⟩ : Measurement)].map render_row).length =
        [(⟨"t", 0, none, none, none⟩ : Measurement)].length ∧
      render_cell_q none = "" ∧ render_cell_i none = "") :=
  ⟨by decide, by decide,
    save_to_csv_content_amended "out.csv" [⟨"t", 0, none, none, none⟩]
      (by decide) (by decide)⟩

/-- Helper: a zero duration disables the loop's bound check entirely, at
every iteration. -/
lemma run_loop_zero_duration (fuel : ℕ) :
    ∀ (i s now : ℚ) (costs : List ℚ),
      run_loop i (some 0) s now costs fuel =
        run_loop i none s now costs fuel := by
  induction fuel with
  | zero => intro i s now costs; rfl
  | succ n ih =>
      intro i s now costs
      simp [run_loop, duration_reached, ih]

/-- Claim C10: a run configured with duration exactly 0 behaves the same as
a run with no duration at all — `0.0` is falsy, the bound check is skipped
and the run is unbounded. -/
theorem run_zero_duration_unbounded :
    ∀ (i t0 p : ℚ) (costs : List ℚ) (fuel : ℕ),
      run i (some 0) t0 p costs fuel = run i none t0 p costs fuel := by
  intro i t0 p costs fuel
  exact run_loop_zero_duration fuel i t0 (t0 + p) costs

end PowerMonitor
